import Mathlib

/-!
# Verification of the krypt envelope codec (src/lib/krypt.js)

Shallow embedding of `src/lib/krypt.js` (nubs/krypt): a symmetric-encryption
envelope utility.  The JavaScript module orchestrates external primitives
(Node's `crypto` module, `JSON`, `Buffer` base64, lodash `_.defaults`); those
primitives are modelled abstractly by a `CryptoPrimitives` record, and every
theorem that needs one of their contracts (e.g. base64 round-trip) takes it
as an explicit hypothesis.  The krypt code itself — validation, the legacy
key-length normalizer, envelope assembly, context merging, the sync and async
facades — is translated line by line below.
-/

namespace Krypt

/-- A JavaScript value as it appears in envelopes and context mappings:
the code only ever stores strings and numbers there. -/
inductive JsVal where
  | str (s : String)
  | num (n : Nat)
deriving DecidableEq, Repr

/-- JavaScript truthiness for the values we model: the empty string and the
number 0 are falsy; everything else is truthy. -/
def JsVal.truthy : JsVal → Bool
  | .str s => s != ""
  | .num n => n != 0

/-- A JavaScript object, as an insertion-ordered association list.
Property lookup is first-match (JS objects have unique keys). -/
abbrev JsObj : Type := List (String × JsVal)

/-- Property read `o.k`: `some v` if the property is present, `none`
(JS `undefined`) otherwise. -/
def objGet (o : JsObj) (k : String) : Option JsVal :=
  match List.find? (fun kv => kv.1 == k) o with
  | some kv => some kv.2
  | none => none

/-- Truthiness of a property read: JS `undefined` is falsy. -/
def fieldTruthy (v : Option JsVal) : Bool :=
  match v with
  | some w => w.truthy
  | none => false

/-- `a || b` on optional strings, as used for `secret = secret || this.defaultSecret`
(krypt.js lines 59, 109, 162, 219): an absent or empty string falls through. -/
def jsOrStr (a b : Option String) : Option String :=
  match a with
  | some s => if s = "" then b else some s
  | none => b

/-- `input.keyLength || this.keyLength` (krypt.js lines 130-131, 243-244):
a present truthy property wins, otherwise the configuration value is used. -/
def jsOrField (v : Option JsVal) (dflt : Nat) : JsVal :=
  match v with
  | some w => if w.truthy then w else .num dflt
  | none => .num dflt

/-- krypt.js line 11: `CIPHER = 'aes-256-cbc'`. -/
def CIPHER : String := "aes-256-cbc"

/-- krypt.js line 12: `KEY_DERIVATION = 'pbkdf2'`. -/
def KEY_DERIVATION : String := "pbkdf2"

/-- krypt.js line 13. -/
def DEFAULT_KEY_LENGTH : Nat := 256

/-- krypt.js line 14. -/
def DEFAULT_ITERATIONS : Nat := 64000

/-- The mutable per-instance configuration (krypt.js lines 28-31). -/
structure KryptState where
  iterations : Nat
  keyLength : Nat
  defaultSecret : Option String
  context : JsObj
deriving DecidableEq, Repr

/-- The default instance `new Krypt()` exported at krypt.js line 17
(constructor defaults, lines 26-31). -/
def init : KryptState :=
  { iterations := DEFAULT_ITERATIONS, keyLength := DEFAULT_KEY_LENGTH,
    defaultSecret := none, context := [] }

/-- The error taxonomy of the spec mapped onto the `new Error(...)` sites of
the code: `validation` for the pre-crypto input checks, `cryptoOp` for errors
wrapped as "Unable to encrypt/decrypt value due to: ...", and `typeError` for
raw JavaScript exceptions that escape unwrapped. -/
inductive KryptError where
  | validation (msg : String)
  | cryptoOp (msg : String)
  | typeError (msg : String)
deriving DecidableEq, Repr

/-- An invocation of a cryptographic primitive, in call order.  Used to state
that validation failures occur before any primitive runs. -/
inductive CryptoEvent where
  | randomBytes (size : Nat)
  | kdf (iterations keyBytes : Nat)
  | cipherEncrypt
  | cipherDecrypt
deriving DecidableEq, Repr

/-- What `JSON.parse` can produce for the purposes of decrypt: a parse
failure (it threw), an object, or a non-object JSON value (`isNull` is true
for the JSON literal `null`, whose property reads throw rather than give
`undefined`). -/
inductive JsonResult where
  | fail
  | objRes (o : JsObj)
  | nonObj (isNull : Bool)
deriving Repr

/-- The external collaborators of krypt.js, modelled abstractly:
Node's CSPRNG, PBKDF2, AES-256-CBC (with base64-coded ciphertext, matching
`cipher.update(input, 'utf8', 'base64')`), `Buffer` base64 codec, and
`JSON.parse`.  The cipher operations return `Except` because
`createCipheriv`/`final` throw on bad keys or bad padding. -/
structure CryptoPrimitives where
  randomBytes : Nat → List Nat
  pbkdf2 : String → List Nat → Nat → Nat → List Nat
  aesEncryptB64 : List Nat → List Nat → String → Except String String
  aesDecryptB64 : List Nat → List Nat → String → Except String String
  b64encode : List Nat → String
  b64decode : String → List Nat
  jsonParse : String → JsonResult

/-- `new Buffer(x, 'base64')` (krypt.js lines 128-129, 241-242): a string is
base64-decoded; the legacy `Buffer` constructor given a number `n` allocates
an `n`-byte (zero-filled) buffer instead. -/
def bufferFromB64 (P : CryptoPrimitives) : JsVal → List Nat
  | .str s => P.b64decode s
  | .num n => List.replicate n 0

/-- The legacy key-length normalizer (krypt.js lines 65-66, 134-135, 169-170,
247-248): a value of exactly 32 was recorded in bytes, so multiply by 8. -/
def legacyKeyLength (kl : Nat) : Nat :=
  if kl = 32 then kl * 8 else kl

/-- The same normalizer applied to a resolved envelope field: `keyLength === 32`
is a strict equality, so only the number 32 is rewritten. -/
def legacyVal (v : JsVal) : JsVal :=
  if v = .num 32 then .num (32 * 8) else v

/-- The core envelope literal built at krypt.js lines 80-88 (and 188-196). -/
def coreEnvelope (kl it : Nat) (ivB64 saltB64 value : String) : JsObj :=
  [("cipher", .str CIPHER),
   ("keyDerivation", .str KEY_DERIVATION),
   ("keyLength", .num kl),
   ("iterations", .num it),
   ("iv", .str ivB64),
   ("salt", .str saltB64),
   ("value", .str value)]

/-- lodash `_.defaults(result, this.context)` (krypt.js lines 90, 198):
every context key not already a property of `result` is appended. -/
def lodashDefaults (dst src : JsObj) : JsObj :=
  dst ++ List.filter (fun kv => (objGet dst kv.1).isNone) src

/- Error message constants (krypt.js lines 56, 61, 95, 105, 111, 119, 125,
149; \x27 is the ASCII apostrophe). -/

def encryptNoValueMsg : String := "You must provide a value to encrypt"

def encryptNoSecretMsg : String := "A \x27secret\x27 is required to encrypt"

def encryptFailMsg : String := "Unable to encrypt value due to: "

def decryptNoValueMsg : String := "You must provide a value to decrypt"

def decryptNoSecretMsg : String := "A \x27secret\x27 is required to decrypt"

def decryptParseMsg : String := "Unable to parse string input as JSON"

def decryptInvalidObjMsg : String :=
  "Input must be a valid object with \x27iv\x27, \x27salt\x27, and \x27value\x27 properties"

def decryptFailMsg : String := "Unable to decrypt value due to: "

/-- Raw TypeError raised by `crypto.randomBytes`/`crypto.pbkdf2` when the
requested byte count `keyLength / 8` is not an integer; it is not wrapped. -/
def badSizeMsg : String := "TypeError: size or key length argument is not an integer"

/-- Raw TypeError raised by reading `input.iv` when `JSON.parse` returned
`null` (krypt.js line 124): property access on `null` throws. -/
def nullAccessMsg : String := "TypeError: Cannot read property \x27iv\x27 of null"

/-- The TypeError thrown inside the `encryptAsync` continuation when it reads
`this.keyLength` (krypt.js line 191) with `this` undefined, as wrapped by the
`catch` at line 202. -/
def thisUndefinedMsg : String :=
  "Unable to encrypt value due to: TypeError: Cannot read property \x27keyLength\x27 of undefined"

/-- Result of a synchronous call: the raised-or-returned value, the instance
state after the call, and the cryptographic primitives invoked, in order. -/
structure EncResult where
  result : Except KryptError JsObj
  state : KryptState
  events : List CryptoEvent

structure DecResult where
  result : Except KryptError String
  state : KryptState
  events : List CryptoEvent

/-- `Krypt.prototype.encrypt` (krypt.js lines 53-98).  `input`/`secret` are
`none` for a missing argument; the drawn randomness comes from
`P.randomBytes`.  The legacy normalization at lines 65-67 writes back to
`this.keyLength`, so the returned state may differ from the input state. -/
def encrypt (P : CryptoPrimitives) (st : KryptState)
    (input secret : Option String) : EncResult :=
  match input with
  | none => ⟨.error (.validation encryptNoValueMsg), st, []⟩
  | some inp =>
    if inp = "" then ⟨.error (.validation encryptNoValueMsg), st, []⟩
    else
      match jsOrStr secret st.defaultSecret with
      | none => ⟨.error (.validation encryptNoSecretMsg), st, []⟩
      | some rs =>
        if rs = "" then ⟨.error (.validation encryptNoSecretMsg), st, []⟩
        else
          -- lines 65-67: legacy normalization, assigned back to this.keyLength
          let kl := legacyKeyLength st.keyLength
          let st1 : KryptState := { st with keyLength := kl }
          if kl % 8 ≠ 0 then
            -- line 69: crypto.randomBytes(keyLength / 8) rejects a
            -- non-integer size; the throw is outside the try block
            ⟨.error (.typeError badSizeMsg), st1, []⟩
          else
            let salt := P.randomBytes (kl / 8)
            let iv := P.randomBytes 16
            let evts := [CryptoEvent.randomBytes (kl / 8), CryptoEvent.randomBytes 16,
                         CryptoEvent.kdf st1.iterations (kl / 8), CryptoEvent.cipherEncrypt]
            let key := P.pbkdf2 rs salt st1.iterations (kl / 8)
            match P.aesEncryptB64 key iv inp with
            | .error e => ⟨.error (.cryptoOp (encryptFailMsg ++ e)), st1, evts⟩
            | .ok encryptedValue =>
              ⟨.ok (lodashDefaults
                      (coreEnvelope kl st1.iterations
                        (P.b64encode iv) (P.b64encode salt) encryptedValue)
                      st1.context),
               st1, evts⟩

/-- The input of decrypt: a structured envelope object or JSON text
(krypt.js lines 114-121 branch on `typeof input !== 'object'`). -/
inductive DecryptInput where
  | obj (o : JsObj)
  | text (s : String)

/-- JS truthiness of the decrypt input (`!input`, line 104): any object is
truthy, a string is truthy iff non-empty, a missing argument is falsy. -/
def decryptInputTruthy : Option DecryptInput → Bool
  | none => false
  | some (.obj _) => true
  | some (.text s) => s != ""

/-- The body of decrypt from the parsed envelope object on
(krypt.js lines 123-151), shared verbatim with `decryptAsync` lines 235-249. -/
def decryptFromObj (P : CryptoPrimitives) (st : KryptState) (o : JsObj)
    (rs : String) : DecResult :=
  if !(fieldTruthy (objGet o "iv")) || !(fieldTruthy (objGet o "salt"))
      || !(fieldTruthy (objGet o "value")) then
    ⟨.error (.validation decryptInvalidObjMsg), st, []⟩
  else
    let salt := bufferFromB64 P ((objGet o "salt").getD (.str ""))
    let iv := bufferFromB64 P ((objGet o "iv").getD (.str ""))
    let klV := legacyVal (jsOrField (objGet o "keyLength") st.keyLength)
    let itV := jsOrField (objGet o "iterations") st.iterations
    match klV, itV with
    | .num kl, .num it =>
      if kl % 8 ≠ 0 then
        -- pbkdf2Sync rejects the non-integer key length; the throw happens
        -- inside the try block (line 140) and is wrapped
        ⟨.error (.cryptoOp (decryptFailMsg ++ badSizeMsg)), st, []⟩
      else
        let key := P.pbkdf2 rs salt it (kl / 8)
        match (objGet o "value").getD (.str "") with
        | .str v =>
          match P.aesDecryptB64 key iv v with
          | .ok d =>
            ⟨.ok d, st, [CryptoEvent.kdf it (kl / 8), CryptoEvent.cipherDecrypt]⟩
          | .error e =>
            ⟨.error (.cryptoOp (decryptFailMsg ++ e)), st,
             [CryptoEvent.kdf it (kl / 8), CryptoEvent.cipherDecrypt]⟩
        | .num _ =>
          -- decipher.update rejects a numeric ciphertext, inside the try
          ⟨.error (.cryptoOp (decryptFailMsg ++ "TypeError: ciphertext is not a string")), st,
           [CryptoEvent.kdf it (kl / 8)]⟩
    | _, _ =>
      -- a non-numeric resolved keyLength or iterations makes pbkdf2Sync
      -- throw (NaN arguments), inside the try block, hence wrapped
      ⟨.error (.cryptoOp (decryptFailMsg ++ badSizeMsg)), st, []⟩

/-- `Krypt.prototype.decrypt` (krypt.js lines 101-152). -/
def decrypt (P : CryptoPrimitives) (st : KryptState)
    (input : Option DecryptInput) (secret : Option String) : DecResult :=
  if !(decryptInputTruthy input) then
    ⟨.error (.validation decryptNoValueMsg), st, []⟩
  else
    match jsOrStr secret st.defaultSecret with
    | none => ⟨.error (.validation decryptNoSecretMsg), st, []⟩
    | some rs =>
      if rs = "" then ⟨.error (.validation decryptNoSecretMsg), st, []⟩
      else
        match input with
        | some (.obj o) => decryptFromObj P st o rs
        | some (.text s) =>
          match P.jsonParse s with
          | .fail => ⟨.error (.validation decryptParseMsg), st, []⟩
          | .objRes o => decryptFromObj P st o rs
          | .nonObj true => ⟨.error (.typeError nullAccessMsg), st, []⟩
          | .nonObj false =>
            -- property reads on a non-object primitive give undefined,
            -- so the iv/salt/value check at line 124 fails
            ⟨.error (.validation decryptInvalidObjMsg), st, []⟩
        | none => ⟨.error (.validation decryptNoValueMsg), st, []⟩

/-- How a call to an async facade drives its completion callback:
`syncCb` — the callback was invoked exactly once, synchronously, before the
initiating call returned (the validation-failure paths, lines 157-166 and
212-239, call `cb(...)` directly);
`thrown` — an exception escaped the call synchronously and the callback was
never invoked;
`deferredCb` — the callback will be invoked exactly once, asynchronously,
after the call has returned, with the recorded `(error, result)` argument. -/
instance exceptDecEq {ε α : Type} [DecidableEq ε] [DecidableEq α] :
    DecidableEq (Except ε α) := fun x y =>
  match x, y with
  | .error a, .error b =>
    if h : a = b then .isTrue (by rw [h]) else .isFalse (by simp [h])
  | .ok a, .ok b =>
    if h : a = b then .isTrue (by rw [h]) else .isFalse (by simp [h])
  | .error _, .ok _ => .isFalse (by simp)
  | .ok _, .error _ => .isFalse (by simp)

inductive AsyncOutcome (α : Type) where
  | syncCb (err : KryptError)
  | thrown (err : KryptError)
  | deferredCb (arg : Except KryptError α)
deriving DecidableEq, Repr

/-- Number of times the callback fires for an outcome. -/
def AsyncOutcome.cbCount {α : Type} : AsyncOutcome α → Nat
  | .syncCb _ => 1
  | .thrown _ => 0
  | .deferredCb _ => 1

structure AsyncEncResult where
  outcome : AsyncOutcome JsObj
  state : KryptState

structure AsyncDecResult where
  outcome : AsyncOutcome String
  state : KryptState

/-- The continuation that `crypto.pbkdf2` invokes in `encryptAsync`
(krypt.js lines 176-205), parameterized by the receiver the callback runs
with.  The file is strict mode (line 6), and Node invokes the callback as a
plain function, so at run time the receiver is `none` (JS `undefined`): the
envelope literal at lines 188-196 then throws on reading `this.keyLength`,
and the `catch` at line 202 wraps that TypeError into the callback error.
With a bound receiver (`some k`) the continuation would assemble the same
envelope the synchronous path builds. -/
def encryptAsyncContinuation (P : CryptoPrimitives) (recv : Option KryptState)
    (inp : String) (salt iv key : List Nat) : Except KryptError JsObj :=
  match P.aesEncryptB64 key iv inp with
  | .error e => .error (.cryptoOp (encryptFailMsg ++ e))
  | .ok encryptedValue =>
    match recv with
    | none => .error (.cryptoOp thisUndefinedMsg)
    | some k =>
      .ok (lodashDefaults
            (coreEnvelope k.keyLength k.iterations
              (P.b64encode iv) (P.b64encode salt) encryptedValue)
            k.context)

/-- `Krypt.prototype.encryptAsync` (krypt.js lines 155-207).  Validation
failures invoke the callback synchronously; the KDF suspends and resumes
`encryptAsyncContinuation` with an undefined receiver (see above). -/
def encryptAsync (P : CryptoPrimitives) (st : KryptState)
    (input secret : Option String) : AsyncEncResult :=
  match input with
  | none => ⟨.syncCb (.validation encryptNoValueMsg), st⟩
  | some inp =>
    if inp = "" then ⟨.syncCb (.validation encryptNoValueMsg), st⟩
    else
      match jsOrStr secret st.defaultSecret with
      | none => ⟨.syncCb (.validation encryptNoSecretMsg), st⟩
      | some rs =>
        if rs = "" then ⟨.syncCb (.validation encryptNoSecretMsg), st⟩
        else
          -- lines 169-171: the same state-mutating legacy normalization
          let kl := legacyKeyLength st.keyLength
          let st1 : KryptState := { st with keyLength := kl }
          if kl % 8 ≠ 0 then
            ⟨.thrown (.typeError badSizeMsg), st1⟩
          else
            let salt := P.randomBytes (kl / 8)
            let iv := P.randomBytes 16
            let key := P.pbkdf2 rs salt st1.iterations (kl / 8)
            ⟨.deferredCb (encryptAsyncContinuation P none inp salt iv key), st1⟩

/-- The deferred part of `decryptAsync` (krypt.js lines 251-270): the KDF
resumes a continuation that only uses closure variables, so it works. -/
def decryptAsyncContinuation (P : CryptoPrimitives) (o : JsObj)
    (iv key : List Nat) : Except KryptError String :=
  match (objGet o "value").getD (.str "") with
  | .str v =>
    match P.aesDecryptB64 key iv v with
    | .ok d => .ok d
    | .error e => .error (.cryptoOp (decryptFailMsg ++ e))
  | .num _ => .error (.cryptoOp (decryptFailMsg ++ "TypeError: ciphertext is not a string"))

/-- `Krypt.prototype.decryptAsync` (krypt.js lines 210-272). -/
def decryptAsync (P : CryptoPrimitives) (st : KryptState)
    (input : Option DecryptInput) (secret : Option String) : AsyncDecResult :=
  if !(decryptInputTruthy input) then
    ⟨.syncCb (.validation decryptNoValueMsg), st⟩
  else
    match jsOrStr secret st.defaultSecret with
    | none => ⟨.syncCb (.validation decryptNoSecretMsg), st⟩
    | some rs =>
      if rs = "" then ⟨.syncCb (.validation decryptNoSecretMsg), st⟩
      else
        let fromObj : JsObj → AsyncDecResult := fun o =>
          if !(fieldTruthy (objGet o "iv")) || !(fieldTruthy (objGet o "salt"))
              || !(fieldTruthy (objGet o "value")) then
            ⟨.syncCb (.validation decryptInvalidObjMsg), st⟩
          else
            let saltB := bufferFromB64 P ((objGet o "salt").getD (.str ""))
            let ivB := bufferFromB64 P ((objGet o "iv").getD (.str ""))
            let klV := legacyVal (jsOrField (objGet o "keyLength") st.keyLength)
            let itV := jsOrField (objGet o "iterations") st.iterations
            match klV, itV with
            | .num kl, .num it =>
              if kl % 8 ≠ 0 then
                -- crypto.pbkdf2 validates its arguments synchronously and
                -- throws; line 251 is not inside any try block
                ⟨.thrown (.typeError badSizeMsg), st⟩
              else
                let key := P.pbkdf2 rs saltB it (kl / 8)
                ⟨.deferredCb (decryptAsyncContinuation P o ivB key), st⟩
            | _, _ => ⟨.thrown (.typeError badSizeMsg), st⟩
        match input with
        | some (.obj o) => fromObj o
        | some (.text s) =>
          match P.jsonParse s with
          | .fail => ⟨.syncCb (.validation decryptParseMsg), st⟩
          | .objRes o => fromObj o
          | .nonObj true => ⟨.thrown (.typeError nullAccessMsg), st⟩
          | .nonObj false => ⟨.syncCb (.validation decryptInvalidObjMsg), st⟩
        | none => ⟨.syncCb (.validation decryptNoValueMsg), st⟩

/-! ## A concrete instantiation of the external primitives

Used to evaluate the embedded code on closed inputs.  The codec encodes each
byte `n` as `n` copies of `x` followed by a separator, which makes the
round-trip law provable; the toy cipher prefixes the plaintext with a marker
character so that decryption is its exact inverse. -/

def toyEncChars : List Nat → List Char
  | [] => []
  | n :: rest => List.replicate n 'x' ++ ',' :: toyEncChars rest

def toyDecChars : List Char → Nat → List Nat
  | [], _ => []
  | c :: rest, acc => if c = ',' then acc :: toyDecChars rest 0 else toyDecChars rest (acc + 1)

def toyPrims : CryptoPrimitives where
  randomBytes := fun n => List.replicate n 7
  pbkdf2 := fun _ salt it n => List.replicate n (it + salt.length)
  aesEncryptB64 := fun _ _ p => .ok (String.mk ('E' :: p.data))
  aesDecryptB64 := fun _ _ c =>
    match c.data with
    | 'E' :: rest => .ok (String.mk rest)
    | _ => .error "bad padding"
  b64encode := fun l => String.mk (toyEncChars l)
  b64decode := fun s => toyDecChars s.data 0
  jsonParse := fun _ => .fail

theorem toyDecChars_replicate (n : Nat) (cs : List Char) (acc : Nat) :
    toyDecChars (List.replicate n 'x' ++ ',' :: cs) acc = (acc + n) :: toyDecChars cs 0 := by
  induction n generalizing acc with
  | zero => simp [toyDecChars]
  | succ m ih =>
    simp only [List.replicate_succ, List.cons_append, toyDecChars, List.append_eq]
    rw [if_neg (by decide), ih]
    have harith : acc + 1 + m = acc + (m + 1) := by omega
    rw [harith]

theorem toy_b64_roundtrip (l : List Nat) :
    toyPrims.b64decode (toyPrims.b64encode l) = l := by
  show toyDecChars (String.mk (toyEncChars l)).data 0 = l
  induction l with
  | nil => rfl
  | cons n rest ih =>
    show toyDecChars (toyEncChars (n :: rest)) 0 = n :: rest
    simp only [toyEncChars, toyDecChars_replicate, Nat.zero_add]
    exact congrArg _ ih

theorem toy_b64_ne_empty (l : List Nat) (h : l ≠ []) :
    toyPrims.b64encode l ≠ "" := by
  match l, h with
  | n :: rest, _ =>
    show String.mk (toyEncChars (n :: rest)) ≠ ""
    simp only [toyEncChars]
    intro hcontra
    have hd := congrArg String.data hcontra
    simp at hd

theorem toy_randomBytes_length (n : Nat) : (toyPrims.randomBytes n).length = n := by
  simp [toyPrims]

theorem toy_pbkdf2_length (s : String) (salt : List Nat) (it n : Nat) :
    (toyPrims.pbkdf2 s salt it n).length = n := by
  simp [toyPrims]

theorem toy_cipher_inverse (k iv : List Nat) (p c : String)
    (h : toyPrims.aesEncryptB64 k iv p = .ok c) :
    toyPrims.aesDecryptB64 k iv c = .ok p := by
  have hc : c = String.mk ('E' :: p.data) := by
    have := h
    simp only [toyPrims] at this
    exact ((Except.ok.injEq _ _).mp this).symm
  subst hc
  show toyPrims.aesDecryptB64 k iv (String.mk ('E' :: p.data)) = .ok p
  simp only [toyPrims]

theorem toy_cipher_total (k iv : List Nat) (p : String) :
    ∃ c, toyPrims.aesEncryptB64 k iv p = .ok c :=
  ⟨_, rfl⟩

theorem toy_ciphertext_ne_empty (k iv : List Nat) (p c : String)
    (h : toyPrims.aesEncryptB64 k iv p = .ok c) : c ≠ "" := by
  have hc : c = String.mk ('E' :: p.data) := by
    simp only [toyPrims] at h
    exact ((Except.ok.injEq _ _).mp h).symm
  subst hc
  intro hcontra
  have := congrArg String.data hcontra
  simp at this

/-! ## Association-list lemmas for envelope lookups -/

theorem objGet_cons (kv : String × JsVal) (rest : JsObj) (k : String) :
    objGet (kv :: rest) k = if kv.1 = k then some kv.2 else objGet rest k := by
  unfold objGet
  by_cases h : kv.1 = k
  · rw [if_pos h]
    rw [List.find?_cons_of_pos]
    exact beq_iff_eq.mpr h
  · rw [if_neg h]
    rw [List.find?_cons_of_neg]
    simpa using h

theorem objGet_append_left (l1 l2 : JsObj) (k : String) (v : JsVal)
    (h : objGet l1 k = some v) : objGet (l1 ++ l2) k = some v := by
  induction l1 with
  | nil => simp [objGet, List.find?] at h
  | cons kv rest ih =>
    rw [objGet_cons] at h
    rw [show (kv :: rest ++ l2) = kv :: (rest ++ l2) from rfl, objGet_cons]
    by_cases hk : kv.1 = k
    · rwa [if_pos hk] at h ⊢
    · rw [if_neg hk] at h ⊢
      exact ih h

theorem objGet_append_right (l1 l2 : JsObj) (k : String)
    (h : objGet l1 k = none) : objGet (l1 ++ l2) k = objGet l2 k := by
  induction l1 with
  | nil => rfl
  | cons kv rest ih =>
    rw [objGet_cons] at h
    rw [show (kv :: rest ++ l2) = kv :: (rest ++ l2) from rfl, objGet_cons]
    by_cases hk : kv.1 = k
    · rw [if_pos hk] at h
      exact absurd h (by simp)
    · rw [if_neg hk] at h ⊢
      exact ih h

theorem objGet_filter (p : String × JsVal → Bool) (src : JsObj) (k : String)
    (h : ∀ kv, kv.1 = k → p kv = true) :
    objGet (List.filter p src) k = objGet src k := by
  induction src with
  | nil => rfl
  | cons kv rest ih =>
    by_cases hk : kv.1 = k
    · rw [List.filter_cons, if_pos (h kv hk), objGet_cons, objGet_cons, if_pos hk, if_pos hk]
    · rw [objGet_cons, if_neg hk, List.filter_cons]
      by_cases hp : p kv = true
      · rw [if_pos hp, objGet_cons, if_neg hk]
        exact ih
      · rw [if_neg hp]
        exact ih

/-- A core-envelope lookup survives the context merge. -/
theorem objGet_defaults_core (core ctx : JsObj) (k : String) (v : JsVal)
    (h : objGet core k = some v) : objGet (lodashDefaults core ctx) k = some v :=
  objGet_append_left _ _ _ _ h

/-- A non-core key reads its context value after the merge. -/
theorem objGet_defaults_ctx (core ctx : JsObj) (k : String)
    (h : objGet core k = none) : objGet (lodashDefaults core ctx) k = objGet ctx k := by
  unfold lodashDefaults
  rw [objGet_append_right _ _ _ h]
  exact objGet_filter _ _ _ (fun kv hk => by rw [hk, h]; rfl)

theorem objGet_core_cipher (kl it : Nat) (i s v : String) :
    objGet (coreEnvelope kl it i s v) "cipher" = some (.str CIPHER) := rfl

theorem objGet_core_keyDerivation (kl it : Nat) (i s v : String) :
    objGet (coreEnvelope kl it i s v) "keyDerivation" = some (.str KEY_DERIVATION) := rfl

theorem objGet_core_keyLength (kl it : Nat) (i s v : String) :
    objGet (coreEnvelope kl it i s v) "keyLength" = some (.num kl) := rfl

theorem objGet_core_iterations (kl it : Nat) (i s v : String) :
    objGet (coreEnvelope kl it i s v) "iterations" = some (.num it) := rfl

theorem objGet_core_iv (kl it : Nat) (i s v : String) :
    objGet (coreEnvelope kl it i s v) "iv" = some (.str i) := rfl

theorem objGet_core_salt (kl it : Nat) (i s v : String) :
    objGet (coreEnvelope kl it i s v) "salt" = some (.str s) := rfl

theorem objGet_core_value (kl it : Nat) (i s v : String) :
    objGet (coreEnvelope kl it i s v) "value" = some (.str v) := rfl

/-- The seven core field names. -/
def coreFieldNames : List String :=
  ["cipher", "keyDerivation", "keyLength", "iterations", "iv", "salt", "value"]

theorem objGet_core_of_not_core (kl it : Nat) (i s v : String) (k : String)
    (h : k ∉ coreFieldNames) : objGet (coreEnvelope kl it i s v) k = none := by
  simp only [coreFieldNames, List.mem_cons, List.mem_singleton, not_or] at h
  obtain ⟨h1, h2, h3, h4, h5, h6, h7, _⟩ := h
  unfold coreEnvelope
  rw [objGet_cons, if_neg (fun hc => h1 hc.symm), objGet_cons, if_neg (fun hc => h2 hc.symm),
    objGet_cons, if_neg (fun hc => h3 hc.symm), objGet_cons, if_neg (fun hc => h4 hc.symm),
    objGet_cons, if_neg (fun hc => h5 hc.symm), objGet_cons, if_neg (fun hc => h6 hc.symm),
    objGet_cons, if_neg (fun hc => h7 hc.symm)]
  rfl

/-! ## Small facts about the legacy normalizer and field resolution -/

theorem legacyKeyLength_ne_32 (kl : Nat) : legacyKeyLength kl ≠ 32 := by
  unfold legacyKeyLength
  by_cases h : kl = 32
  · rw [if_pos h]; omega
  · rw [if_neg h]; exact h

theorem legacyKeyLength_pos (kl : Nat) (h : 0 < kl) : 0 < legacyKeyLength kl := by
  unfold legacyKeyLength
  by_cases h32 : kl = 32
  · rw [if_pos h32]; omega
  · rwa [if_neg h32]

theorem legacyKeyLength_eq_of_ne (kl : Nat) (h : kl ≠ 32) : legacyKeyLength kl = kl :=
  if_neg h

theorem jsOrField_num_self (d : Nat) : jsOrField (some (.num d)) d = .num d := by
  unfold jsOrField
  exact ite_self _

theorem legacyVal_num_of_ne (n : Nat) (h : n ≠ 32) : legacyVal (.num n) = .num n := by
  unfold legacyVal
  rw [if_neg]
  simp [h]

theorem jsOrStr_some_of_ne (s : String) (d : Option String) (h : s ≠ "") :
    jsOrStr (some s) d = some s := by
  simp only [jsOrStr]
  rw [if_neg h]

/-! ## Characterisations of the embedded operations -/

/-- Shape of a successful `encrypt` call with explicit non-empty arguments:
the normalized key length was a byte multiple, the cipher succeeded, and the
returned envelope is the context-merged core envelope over the drawn salt,
IV and derived key. -/
theorem encrypt_ok_shape (P : CryptoPrimitives) (st : KryptState)
    (inp secret : String) (env : JsObj) (hin : inp ≠ "") (hsec : secret ≠ "")
    (hok : (encrypt P st (some inp) (some secret)).result = .ok env) :
    legacyKeyLength st.keyLength % 8 = 0 ∧
    ∃ ev, P.aesEncryptB64
        (P.pbkdf2 secret (P.randomBytes (legacyKeyLength st.keyLength / 8))
          st.iterations (legacyKeyLength st.keyLength / 8))
        (P.randomBytes 16) inp = .ok ev ∧
      env = lodashDefaults
        (coreEnvelope (legacyKeyLength st.keyLength) st.iterations
          (P.b64encode (P.randomBytes 16))
          (P.b64encode (P.randomBytes (legacyKeyLength st.keyLength / 8))) ev)
        st.context := by
  simp only [encrypt, jsOrStr_some_of_ne secret st.defaultSecret hsec] at hok
  rw [if_neg hin, if_neg hsec] at hok
  by_cases h8 : legacyKeyLength st.keyLength % 8 ≠ 0
  · rw [if_pos h8] at hok
    exact absurd hok (by simp)
  · rw [if_neg h8] at hok
    refine ⟨by omega, ?_⟩
    rcases hE : P.aesEncryptB64
        (P.pbkdf2 secret (P.randomBytes (legacyKeyLength st.keyLength / 8))
          st.iterations (legacyKeyLength st.keyLength / 8))
        (P.randomBytes 16) inp with e | ev
    · rw [hE] at hok
      exact absurd hok (by simp)
    · rw [hE] at hok
      exact ⟨ev, rfl, by simpa using hok.symm⟩

/-- `encrypt` leaves the state unchanged or (after passing validation)
rewrites `keyLength` through the legacy normalizer; nothing else changes. -/
theorem encrypt_state_cases (P : CryptoPrimitives) (st : KryptState)
    (input secret : Option String) :
    (encrypt P st input secret).state = st ∨
    (encrypt P st input secret).state = { st with keyLength := legacyKeyLength st.keyLength } := by
  cases input with
  | none => left; rfl
  | some inp =>
    by_cases h1 : inp = ""
    · left; simp only [encrypt]; rw [if_pos h1]
    · cases hjs : jsOrStr secret st.defaultSecret with
      | none => left; simp only [encrypt, hjs]; rw [if_neg h1]
      | some rs =>
        by_cases h2 : rs = ""
        · left; simp only [encrypt, hjs]; rw [if_neg h1, if_pos h2]
        · right
          simp only [encrypt, hjs]
          rw [if_neg h1, if_neg h2]
          by_cases h8 : legacyKeyLength st.keyLength % 8 ≠ 0
          · rw [if_pos h8]
          · rw [if_neg h8]
            rcases hE : P.aesEncryptB64
                (P.pbkdf2 rs (P.randomBytes (legacyKeyLength st.keyLength / 8))
                  st.iterations (legacyKeyLength st.keyLength / 8))
                (P.randomBytes 16) inp with e | ev
            · rfl
            · rfl

/-- Same state characterisation for `encryptAsync` (lines 169-171 mutate the
instance exactly like the synchronous path). -/
theorem encryptAsync_state_cases (P : CryptoPrimitives) (st : KryptState)
    (input secret : Option String) :
    (encryptAsync P st input secret).state = st ∨
    (encryptAsync P st input secret).state = { st with keyLength := legacyKeyLength st.keyLength } := by
  cases input with
  | none => left; rfl
  | some inp =>
    by_cases h1 : inp = ""
    · left; simp only [encryptAsync]; rw [if_pos h1]
    · cases hjs : jsOrStr secret st.defaultSecret with
      | none => left; simp only [encryptAsync, hjs]; rw [if_neg h1]
      | some rs =>
        by_cases h2 : rs = ""
        · left; simp only [encryptAsync, hjs]; rw [if_neg h1, if_pos h2]
        · right
          simp only [encryptAsync, hjs]
          rw [if_neg h1, if_neg h2]
          by_cases h8 : legacyKeyLength st.keyLength % 8 ≠ 0
          · rw [if_pos h8]
          · rw [if_neg h8]

/-- `decryptFromObj` never writes to the instance state. -/
theorem decryptFromObj_state (P : CryptoPrimitives) (st : KryptState)
    (o : JsObj) (rs : String) : (decryptFromObj P st o rs).state = st := by
  unfold decryptFromObj
  repeat' first
  | rfl
  | split
  | simp only []

/-- `decrypt` never writes to the instance state (krypt.js lines 101-152
contain no assignment to `this`). -/
theorem decrypt_state (P : CryptoPrimitives) (st : KryptState)
    (input : Option DecryptInput) (secret : Option String) :
    (decrypt P st input secret).state = st := by
  unfold decrypt
  repeat' first
  | rfl
  | exact decryptFromObj_state P st _ _
  | split

/-- `decryptAsync` never writes to the instance state. -/
theorem decryptAsync_state (P : CryptoPrimitives) (st : KryptState)
    (input : Option DecryptInput) (secret : Option String) :
    (decryptAsync P st input secret).state = st := by
  unfold decryptAsync
  repeat' first
  | rfl
  | split
  | simp only []

theorem fieldTruthy_str (s : String) (h : s ≠ "") :
    fieldTruthy (some (.str s)) = true := by
  simp [fieldTruthy, JsVal.truthy, h]

theorem jsOrField_num_pos (n d : Nat) (h : 0 < n) :
    jsOrField (some (.num n)) d = .num n := by
  simp only [jsOrField, JsVal.truthy]
  rw [if_pos]
  simpa using Nat.pos_iff_ne_zero.mp h

/-- State after a successful `encrypt`: the legacy normalization has been
written back to `this.keyLength`. -/
theorem encrypt_ok_state (P : CryptoPrimitives) (st : KryptState)
    (inp secret : String) (env : JsObj) (hin : inp ≠ "") (hsec : secret ≠ "")
    (hok : (encrypt P st (some inp) (some secret)).result = .ok env) :
    (encrypt P st (some inp) (some secret)).state
      = { st with keyLength := legacyKeyLength st.keyLength } := by
  simp only [encrypt, jsOrStr_some_of_ne secret st.defaultSecret hsec] at hok ⊢
  rw [if_neg hin, if_neg hsec] at hok ⊢
  by_cases h8 : legacyKeyLength st.keyLength % 8 ≠ 0
  · rw [if_pos h8] at hok
    exact absurd hok (by simp)
  · rw [if_neg h8] at hok ⊢
    rcases hE : P.aesEncryptB64
        (P.pbkdf2 secret (P.randomBytes (legacyKeyLength st.keyLength / 8))
          st.iterations (legacyKeyLength st.keyLength / 8))
        (P.randomBytes 16) inp with e | ev
    · rw [hE] at hok
    · rfl

/-- The round-trip core: a successful `encrypt` followed by `decrypt` on the
same instance with the same secret recovers the plaintext, given the
contracts of the external primitives (base64 round-trips and is non-empty on
non-empty byte strings, the CSPRNG honours its size argument, CBC decryption
inverts encryption, and ciphertext base64 is never the empty string). -/
theorem encrypt_then_decrypt (P : CryptoPrimitives)
    (hb64 : ∀ l, P.b64decode (P.b64encode l) = l)
    (hb64ne : ∀ l, l ≠ [] → P.b64encode l ≠ "")
    (hrnd : ∀ n, (P.randomBytes n).length = n)
    (hcipher : ∀ k iv p c, P.aesEncryptB64 k iv p = .ok c → P.aesDecryptB64 k iv c = .ok p)
    (hctne : ∀ k iv p c, P.aesEncryptB64 k iv p = .ok c → c ≠ "")
    (st : KryptState) (inp secret : String) (env : JsObj)
    (hin : inp ≠ "") (hsec : secret ≠ "") (hkl : 0 < st.keyLength)
    (hok : (encrypt P st (some inp) (some secret)).result = .ok env) :
    (decrypt P (encrypt P st (some inp) (some secret)).state
      (some (.obj env)) (some secret)).result = .ok inp := by
  obtain ⟨h8, ev, hE, henv⟩ := encrypt_ok_shape P st inp secret env hin hsec hok
  rw [encrypt_ok_state P st inp secret env hin hsec hok]
  have klpos : 0 < legacyKeyLength st.keyLength := legacyKeyLength_pos _ hkl
  have kl8pos : 0 < legacyKeyLength st.keyLength / 8 := by omega
  have hivne : P.randomBytes 16 ≠ [] := by
    intro hcontra
    have := hrnd 16
    rw [hcontra] at this
    simp at this
  have hsaltne : P.randomBytes (legacyKeyLength st.keyLength / 8) ≠ [] := by
    intro hcontra
    have := hrnd (legacyKeyLength st.keyLength / 8)
    rw [hcontra] at this
    simp only [List.length_nil] at this
    omega
  have hivs := hb64ne _ hivne
  have hsalts := hb64ne _ hsaltne
  have hevne := hctne _ _ _ _ hE
  have hiv : objGet env "iv" = some (.str (P.b64encode (P.randomBytes 16))) := by
    rw [henv]
    exact objGet_defaults_core _ _ _ _ (objGet_core_iv _ _ _ _ _)
  have hsalt : objGet env "salt"
      = some (.str (P.b64encode (P.randomBytes (legacyKeyLength st.keyLength / 8)))) := by
    rw [henv]
    exact objGet_defaults_core _ _ _ _ (objGet_core_salt _ _ _ _ _)
  have hval : objGet env "value" = some (.str ev) := by
    rw [henv]
    exact objGet_defaults_core _ _ _ _ (objGet_core_value _ _ _ _ _)
  have hklf : objGet env "keyLength" = some (.num (legacyKeyLength st.keyLength)) := by
    rw [henv]
    exact objGet_defaults_core _ _ _ _ (objGet_core_keyLength _ _ _ _ _)
  have hitf : objGet env "iterations" = some (.num st.iterations) := by
    rw [henv]
    exact objGet_defaults_core _ _ _ _ (objGet_core_iterations _ _ _ _ _)
  have hst1 : ({ st with keyLength := legacyKeyLength st.keyLength } : KryptState).defaultSecret
      = st.defaultSecret := rfl
  simp only [decrypt, decryptInputTruthy, hst1, jsOrStr_some_of_ne secret st.defaultSecret hsec,
    Bool.not_true]
  rw [if_neg (by simp), if_neg hsec]
  unfold decryptFromObj
  rw [hiv, hsalt, hval]
  rw [if_neg (by
    simp only [fieldTruthy_str _ hivs, fieldTruthy_str _ hsalts, fieldTruthy_str _ hevne,
      Bool.not_true, Bool.or_self]
    simp)]
  simp only [Option.getD_some, bufferFromB64, hb64, hklf, hitf]
  have hklres : legacyVal (jsOrField (some (.num (legacyKeyLength st.keyLength)))
      ({ st with keyLength := legacyKeyLength st.keyLength } : KryptState).keyLength)
      = .num (legacyKeyLength st.keyLength) := by
    rw [jsOrField_num_pos _ _ klpos]
    exact legacyVal_num_of_ne _ (legacyKeyLength_ne_32 _)
  have hitres : jsOrField (some (.num st.iterations))
      ({ st with keyLength := legacyKeyLength st.keyLength } : KryptState).iterations
      = .num st.iterations := jsOrField_num_self _
  rw [hklres, hitres]
  simp only []
  rw [if_neg (by omega : ¬legacyKeyLength st.keyLength % 8 ≠ 0)]
  rw [hcipher _ _ _ _ hE]

/-! ## Claims -/

/-- C1: For every non-empty plaintext string P and non-empty secret S,
decrypting the envelope returned by `encrypt(P, S)` with the same secret S
(on the same instance) returns P.  The hypotheses are the contracts of the
external primitives (Node crypto / Buffer base64) and the configuration
invariant that the key length is positive. -/
theorem c1_roundtrip (P : CryptoPrimitives)
    (hb64 : ∀ l, P.b64decode (P.b64encode l) = l)
    (hb64ne : ∀ l, l ≠ [] → P.b64encode l ≠ "")
    (hrnd : ∀ n, (P.randomBytes n).length = n)
    (hcipher : ∀ k iv p c, P.aesEncryptB64 k iv p = .ok c → P.aesDecryptB64 k iv c = .ok p)
    (hctne : ∀ k iv p c, P.aesEncryptB64 k iv p = .ok c → c ≠ "")
    (st : KryptState) (inp secret : String) (env : JsObj)
    (hin : inp ≠ "") (hsec : secret ≠ "") (hkl : 0 < st.keyLength)
    (hok : (encrypt P st (some inp) (some secret)).result = .ok env) :
    (decrypt P (encrypt P st (some inp) (some secret)).state
      (some (.obj env)) (some secret)).result = .ok inp :=
  encrypt_then_decrypt P hb64 hb64ne hrnd hcipher hctne st inp secret env hin hsec hkl hok

/-- Witness for C1 at a concrete instance of the primitives and inputs. -/
theorem c1_roundtrip_witness :
    (decrypt toyPrims (encrypt toyPrims init (some "hi") (some "pw")).state
      (some (.obj ((encrypt toyPrims init (some "hi") (some "pw")).result.toOption.getD [])))
      (some "pw")).result = .ok "hi" :=
  c1_roundtrip toyPrims toy_b64_roundtrip toy_b64_ne_empty toy_randomBytes_length
    toy_cipher_inverse toy_ciphertext_ne_empty init "hi" "pw"
    ((encrypt toyPrims init (some "hi") (some "pw")).result.toOption.getD [])
    (by decide) (by decide) (by decide) (by rfl)

/-- Introduction form of a successful `encrypt`: when validation passes, the
key length is a byte multiple and the cipher succeeds, the result is exactly
the context-merged core envelope. -/
theorem encrypt_ok_intro (P : CryptoPrimitives) (st : KryptState)
    (inp secret ev : String) (hin : inp ≠ "") (hsec : secret ≠ "")
    (h8 : legacyKeyLength st.keyLength % 8 = 0)
    (hE : P.aesEncryptB64
        (P.pbkdf2 secret (P.randomBytes (legacyKeyLength st.keyLength / 8))
          st.iterations (legacyKeyLength st.keyLength / 8))
        (P.randomBytes 16) inp = .ok ev) :
    (encrypt P st (some inp) (some secret)).result
      = .ok (lodashDefaults
          (coreEnvelope (legacyKeyLength st.keyLength) st.iterations
            (P.b64encode (P.randomBytes 16))
            (P.b64encode (P.randomBytes (legacyKeyLength st.keyLength / 8))) ev)
          st.context) := by
  simp only [encrypt, jsOrStr_some_of_ne secret st.defaultSecret hsec]
  rw [if_neg hin, if_neg hsec, if_neg (by omega : ¬legacyKeyLength st.keyLength % 8 ≠ 0), hE]

/-- C10: under the default configuration, `encrypt("hello world",
"correct-horse")` yields an envelope with cipher `aes-256-cbc`, key
derivation `pbkdf2`, keyLength 256, iterations 64000, base64 iv/salt/value
fields whose decoded lengths are 16 bytes (iv) and 256/8 bytes (salt), and
feeding that envelope with the same secret into `decrypt` returns
`"hello world"`. -/
theorem c10_default_example (P : CryptoPrimitives)
    (hb64 : ∀ l, P.b64decode (P.b64encode l) = l)
    (hb64ne : ∀ l, l ≠ [] → P.b64encode l ≠ "")
    (hrnd : ∀ n, (P.randomBytes n).length = n)
    (hcipher : ∀ k iv p c, P.aesEncryptB64 k iv p = .ok c → P.aesDecryptB64 k iv c = .ok p)
    (hctne : ∀ k iv p c, P.aesEncryptB64 k iv p = .ok c → c ≠ "")
    (hkdf : ∀ s salt it n, (P.pbkdf2 s salt it n).length = n)
    (henc : ∀ k iv p, k.length = 32 → ∃ c, P.aesEncryptB64 k iv p = .ok c) :
    ∃ env ivs salts vals,
      (encrypt P init (some "hello world") (some "correct-horse")).result = .ok env ∧
      objGet env "cipher" = some (.str "aes-256-cbc") ∧
      objGet env "keyDerivation" = some (.str "pbkdf2") ∧
      objGet env "keyLength" = some (.num 256) ∧
      objGet env "iterations" = some (.num 64000) ∧
      objGet env "iv" = some (.str ivs) ∧ (P.b64decode ivs).length = 16 ∧
      objGet env "salt" = some (.str salts) ∧ (P.b64decode salts).length = 256 / 8 ∧
      objGet env "value" = some (.str vals) ∧
      (decrypt P (encrypt P init (some "hello world") (some "correct-horse")).state
        (some (.obj env)) (some "correct-horse")).result = .ok "hello world" := by
  have hkl0 : legacyKeyLength init.keyLength = 256 := by decide
  obtain ⟨ev, hE⟩ := henc
    (P.pbkdf2 "correct-horse" (P.randomBytes (legacyKeyLength init.keyLength / 8))
      init.iterations (legacyKeyLength init.keyLength / 8))
    (P.randomBytes 16) "hello world" (by rw [hkl0]; exact hkdf _ _ _ _)
  have hok := encrypt_ok_intro P init "hello world" "correct-horse" ev
    (by decide) (by decide) (by rw [hkl0]) hE
  refine ⟨_, P.b64encode (P.randomBytes 16),
    P.b64encode (P.randomBytes (legacyKeyLength init.keyLength / 8)), ev, hok,
    objGet_defaults_core _ _ _ _ (by rw [hkl0]; exact objGet_core_cipher _ _ _ _ _),
    objGet_defaults_core _ _ _ _ (by rw [hkl0]; exact objGet_core_keyDerivation _ _ _ _ _),
    objGet_defaults_core _ _ _ _ (by rw [hkl0]; exact objGet_core_keyLength _ _ _ _ _),
    objGet_defaults_core _ _ _ _ (by rw [hkl0]; exact objGet_core_iterations _ _ _ _ _),
    objGet_defaults_core _ _ _ _ (by rw [hkl0]; exact objGet_core_iv _ _ _ _ _),
    by rw [hb64]; exact hrnd 16,
    objGet_defaults_core _ _ _ _ (by rw [hkl0]; exact objGet_core_salt _ _ _ _ _),
    by rw [hb64, hrnd, hkl0],
    objGet_defaults_core _ _ _ _ (by rw [hkl0]; exact objGet_core_value _ _ _ _ _),
    encrypt_then_decrypt P hb64 hb64ne hrnd hcipher hctne init "hello world" "correct-horse"
      _ (by decide) (by decide) (by decide) hok⟩

/-- Witness for C10 at the concrete primitives. -/
theorem c10_default_example_witness :
    ∃ env ivs salts vals,
      (encrypt toyPrims init (some "hello world") (some "correct-horse")).result = .ok env ∧
      objGet env "cipher" = some (.str "aes-256-cbc") ∧
      objGet env "keyDerivation" = some (.str "pbkdf2") ∧
      objGet env "keyLength" = some (.num 256) ∧
      objGet env "iterations" = some (.num 64000) ∧
      objGet env "iv" = some (.str ivs) ∧ (toyPrims.b64decode ivs).length = 16 ∧
      objGet env "salt" = some (.str salts) ∧ (toyPrims.b64decode salts).length = 256 / 8 ∧
      objGet env "value" = some (.str vals) ∧
      (decrypt toyPrims (encrypt toyPrims init (some "hello world") (some "correct-horse")).state
        (some (.obj env)) (some "correct-horse")).result = .ok "hello world" :=
  c10_default_example toyPrims toy_b64_roundtrip toy_b64_ne_empty toy_randomBytes_length
    toy_cipher_inverse toy_ciphertext_ne_empty toy_pbkdf2_length
    (fun k iv p _ => toy_cipher_total k iv p)

/-- C8: the envelope returned by `encrypt` keeps the seven core fields
exactly as computed by the pipeline — context keys never overwrite them —
while every non-core key reads as in the session context (in particular,
context keys absent from the core envelope appear with their context
values). -/
theorem c8_context_merge (P : CryptoPrimitives) (st : KryptState)
    (inp secret : String) (env : JsObj) (hin : inp ≠ "") (hsec : secret ≠ "")
    (hok : (encrypt P st (some inp) (some secret)).result = .ok env) :
    objGet env "cipher" = some (.str CIPHER) ∧
    objGet env "keyDerivation" = some (.str KEY_DERIVATION) ∧
    objGet env "keyLength" = some (.num (legacyKeyLength st.keyLength)) ∧
    objGet env "iterations" = some (.num st.iterations) ∧
    objGet env "iv" = some (.str (P.b64encode (P.randomBytes 16))) ∧
    objGet env "salt"
      = some (.str (P.b64encode (P.randomBytes (legacyKeyLength st.keyLength / 8)))) ∧
    (∃ ev, P.aesEncryptB64
        (P.pbkdf2 secret (P.randomBytes (legacyKeyLength st.keyLength / 8))
          st.iterations (legacyKeyLength st.keyLength / 8))
        (P.randomBytes 16) inp = .ok ev ∧
      objGet env "value" = some (.str ev)) ∧
    (∀ k, k ∉ coreFieldNames → objGet env k = objGet st.context k) := by
  obtain ⟨h8, ev, hE, henv⟩ := encrypt_ok_shape P st inp secret env hin hsec hok
  subst henv
  refine ⟨objGet_defaults_core _ _ _ _ (objGet_core_cipher _ _ _ _ _),
    objGet_defaults_core _ _ _ _ (objGet_core_keyDerivation _ _ _ _ _),
    objGet_defaults_core _ _ _ _ (objGet_core_keyLength _ _ _ _ _),
    objGet_defaults_core _ _ _ _ (objGet_core_iterations _ _ _ _ _),
    objGet_defaults_core _ _ _ _ (objGet_core_iv _ _ _ _ _),
    objGet_defaults_core _ _ _ _ (objGet_core_salt _ _ _ _ _),
    ⟨ev, hE, objGet_defaults_core _ _ _ _ (objGet_core_value _ _ _ _ _)⟩,
    fun k hk => objGet_defaults_ctx _ _ _ (objGet_core_of_not_core _ _ _ _ _ _ hk)⟩

/-- The session used by the C8 witness: context `{keyLength: 999, owner: "alice"}`. -/
def c8State : KryptState :=
  { iterations := 64000, keyLength := 256, defaultSecret := none,
    context := [("keyLength", .num 999), ("owner", .str "alice")] }

def c8Env : JsObj :=
  (encrypt toyPrims c8State (some "msg") (some "sec")).result.toOption.getD []

/-- Witness for C8: with context `{keyLength: 999, owner: "alice"}`, the
envelope's `keyLength` is the cryptographic one (256, not 999) and `owner`
is `"alice"`. -/
theorem c8_context_merge_witness :
    objGet c8Env "keyLength" = some (.num 256) ∧
    objGet c8Env "owner" = some (.str "alice") := by
  have h := c8_context_merge toyPrims c8State "msg" "sec" c8Env
    (by decide) (by decide) (by rfl)
  constructor
  · have hc := h.2.2.1
    rw [show legacyKeyLength c8State.keyLength = 256 from by decide] at hc
    exact hc
  · rw [h.2.2.2.2.2.2.2 "owner" (by decide)]
    rfl

theorem legacyVal_num (n : Nat) : legacyVal (.num n) = .num (legacyKeyLength n) := by
  unfold legacyVal legacyKeyLength
  by_cases h : n = 32
  · subst h
    rw [if_pos rfl, if_pos rfl]
  · rw [if_neg (by simp [h]), if_neg h]

/-- With a non-empty explicit secret, `decrypt` on an object input reduces to
the shared envelope-processing body. -/
theorem decrypt_obj_eq (P : CryptoPrimitives) (st : KryptState) (o : JsObj)
    (secret : String) (hsec : secret ≠ "") :
    decrypt P st (some (.obj o)) (some secret) = decryptFromObj P st o secret := by
  simp only [decrypt, decryptInputTruthy, jsOrStr_some_of_ne secret st.defaultSecret hsec,
    Bool.not_true]
  rw [if_neg (by simp), if_neg hsec]

/-- When the envelope passes field validation and the resolved key length and
iteration count are positive numbers, the decrypt body's first primitive call
is the KDF with the legacy-normalized key byte count. -/
theorem decryptFromObj_kdf (P : CryptoPrimitives) (st : KryptState) (o : JsObj)
    (rs : String) (kl it : Nat)
    (hiv : fieldTruthy (objGet o "iv") = true)
    (hsalt : fieldTruthy (objGet o "salt") = true)
    (hval : fieldTruthy (objGet o "value") = true)
    (hklres : jsOrField (objGet o "keyLength") st.keyLength = .num kl)
    (hitres : jsOrField (objGet o "iterations") st.iterations = .num it)
    (h8 : legacyKeyLength kl % 8 = 0) :
    (decryptFromObj P st o rs).events.head?
      = some (.kdf it (legacyKeyLength kl / 8)) := by
  unfold decryptFromObj
  rw [if_neg (by rw [hiv, hsalt, hval]; simp)]
  simp only [hklres, hitres, legacyVal_num]
  rw [if_neg (by omega : ¬legacyKeyLength kl % 8 ≠ 0)]
  rcases hw : objGet o "value" with _ | w
  · rw [hw] at hval
    exact absurd hval (by simp [fieldTruthy])
  · cases w with
    | str v =>
      rcases hd : P.aesDecryptB64
          (P.pbkdf2 rs (bufferFromB64 P ((objGet o "salt").getD (.str ""))) it
            (legacyKeyLength kl / 8))
          (bufferFromB64 P ((objGet o "iv").getD (.str ""))) v with d | e
      · simp only [Option.getD_some, hd]
        rfl
      · simp only [Option.getD_some, hd]
        rfl
    | num n => rfl

/-- The `keyLength` field of any successfully produced envelope is the
legacy-normalized configured key length. -/
theorem encrypt_ok_keyLength_field (P : CryptoPrimitives) (st : KryptState)
    (inp secret : String) (env : JsObj) (hin : inp ≠ "") (hsec : secret ≠ "")
    (hok : (encrypt P st (some inp) (some secret)).result = .ok env) :
    objGet env "keyLength" = some (.num (legacyKeyLength st.keyLength)) := by
  obtain ⟨h8, ev, hE, henv⟩ := encrypt_ok_shape P st inp secret env hin hsec hok
  subst henv
  exact objGet_defaults_core _ _ _ _ (objGet_core_keyLength _ _ _ _ _)

/-- C6: a key-length value of exactly 32 is reinterpreted as 256 on both the
encrypt path (envelope records 256) and the decrypt path (the KDF derives a
256-bit = 32-byte key), and no other key-length value is altered by the
legacy normalizer. -/
theorem c6_legacy_keyLength :
    (∀ kl, kl ≠ 32 → legacyKeyLength kl = kl) ∧
    legacyKeyLength 32 = 256 ∧
    (∀ (P : CryptoPrimitives) (st : KryptState) (inp secret : String) (env : JsObj),
      inp ≠ "" → secret ≠ "" → st.keyLength = 32 →
      (encrypt P st (some inp) (some secret)).result = .ok env →
      objGet env "keyLength" = some (.num 256)) ∧
    (∀ (P : CryptoPrimitives) (st : KryptState) (env : JsObj) (secret : String) (it : Nat),
      secret ≠ "" →
      fieldTruthy (objGet env "iv") = true →
      fieldTruthy (objGet env "salt") = true →
      fieldTruthy (objGet env "value") = true →
      objGet env "keyLength" = some (.num 32) →
      objGet env "iterations" = some (.num it) → 0 < it →
      (decrypt P st (some (.obj env)) (some secret)).events.head?
        = some (CryptoEvent.kdf it (256 / 8))) := by
  refine ⟨fun kl h => legacyKeyLength_eq_of_ne kl h, by decide, ?_, ?_⟩
  · intro P st inp secret env hin hsec h32 hok
    have h := encrypt_ok_keyLength_field P st inp secret env hin hsec hok
    rw [h, h32]
    rfl
  · intro P st env secret it hsec hiv hsalt hval hklf hitf hitpos
    rw [decrypt_obj_eq P st env secret hsec]
    rw [decryptFromObj_kdf P st env secret 32 it hiv hsalt hval
      (by rw [hklf]; exact jsOrField_num_pos _ _ (by decide))
      (by rw [hitf]; exact jsOrField_num_pos _ _ hitpos)
      (by decide)]
    rw [show legacyKeyLength 32 = 256 from by decide]

/-- A session configured with the legacy byte-based key length 32. -/
def c6State : KryptState :=
  { iterations := 64000, keyLength := 32, defaultSecret := none, context := [] }

def c6Env : JsObj :=
  (encrypt toyPrims c6State (some "m") (some "s")).result.toOption.getD []

/-- An envelope whose stored keyLength is the legacy value 32. -/
def c6DecEnv : JsObj :=
  [("iv", .str "A"), ("salt", .str "B"), ("value", .str "C"),
   ("keyLength", .num 32), ("iterations", .num 5)]

/-- Witness for C6: keyLength 40 is untouched; encrypting with configured
keyLength 32 stores 256; decrypting a stored keyLength of 32 derives a
256-bit (32-byte) key. -/
theorem c6_legacy_keyLength_witness :
    legacyKeyLength 40 = 40 ∧
    objGet c6Env "keyLength" = some (.num 256) ∧
    (decrypt toyPrims init (some (.obj c6DecEnv)) (some "s")).events.head?
      = some (.kdf 5 (256 / 8)) :=
  ⟨c6_legacy_keyLength.1 40 (by decide),
   c6_legacy_keyLength.2.2.1 toyPrims c6State "m" "s" c6Env
     (by decide) (by decide) (by decide) (by rfl),
   c6_legacy_keyLength.2.2.2 toyPrims init c6DecEnv "s" 5
     (by decide) (by decide) (by decide) (by decide) (by rfl) (by rfl) (by decide)⟩

/-- C7: every validation failure — missing/empty plaintext on encrypt,
missing/empty resolved secret, unparseable JSON text on decrypt, or an
envelope lacking a truthy `iv`/`salt`/`value` — raises the corresponding
`ValidationError` (the malformed-JSON case with the parse-failure message),
and in every such case no cryptographic primitive (CSPRNG, KDF, cipher)
has been invoked: the event trace is empty. -/
theorem c7_validation_before_crypto :
    (∀ (P : CryptoPrimitives) (st : KryptState) (secret : Option String),
      (encrypt P st none secret).result = .error (.validation encryptNoValueMsg) ∧
      (encrypt P st none secret).events = [] ∧
      (encrypt P st (some "") secret).result = .error (.validation encryptNoValueMsg) ∧
      (encrypt P st (some "") secret).events = []) ∧
    (∀ (P : CryptoPrimitives) (st : KryptState) (inp : String) (secret : Option String),
      inp ≠ "" →
      (jsOrStr secret st.defaultSecret = none ∨ jsOrStr secret st.defaultSecret = some "") →
      (encrypt P st (some inp) secret).result = .error (.validation encryptNoSecretMsg) ∧
      (encrypt P st (some inp) secret).events = []) ∧
    (∀ (P : CryptoPrimitives) (st : KryptState) (secret : Option String),
      (decrypt P st none secret).result = .error (.validation decryptNoValueMsg) ∧
      (decrypt P st none secret).events = [] ∧
      (decrypt P st (some (.text "")) secret).result = .error (.validation decryptNoValueMsg) ∧
      (decrypt P st (some (.text "")) secret).events = []) ∧
    (∀ (P : CryptoPrimitives) (st : KryptState) (input : Option DecryptInput)
      (secret : Option String),
      decryptInputTruthy input = true →
      (jsOrStr secret st.defaultSecret = none ∨ jsOrStr secret st.defaultSecret = some "") →
      (decrypt P st input secret).result = .error (.validation decryptNoSecretMsg) ∧
      (decrypt P st input secret).events = []) ∧
    (∀ (P : CryptoPrimitives) (st : KryptState) (s secret : String),
      s ≠ "" → secret ≠ "" → P.jsonParse s = .fail →
      (decrypt P st (some (.text s)) (some secret)).result
        = .error (.validation decryptParseMsg) ∧
      (decrypt P st (some (.text s)) (some secret)).events = []) ∧
    (∀ (P : CryptoPrimitives) (st : KryptState) (o : JsObj) (secret : String),
      secret ≠ "" →
      (fieldTruthy (objGet o "iv") = false ∨ fieldTruthy (objGet o "salt") = false ∨
        fieldTruthy (objGet o "value") = false) →
      (decrypt P st (some (.obj o)) (some secret)).result
        = .error (.validation decryptInvalidObjMsg) ∧
      (decrypt P st (some (.obj o)) (some secret)).events = []) := by
  refine ⟨?_, ?_, ?_, ?_, ?_, ?_⟩
  · intro P st secret
    exact ⟨rfl, rfl, rfl, rfl⟩
  · intro P st inp secret hin hsec
    rcases hsec with h | h
    all_goals
      simp only [encrypt, h]
      rw [if_neg hin]
      exact ⟨rfl, rfl⟩
  · intro P st secret
    exact ⟨rfl, rfl, rfl, rfl⟩
  · intro P st input secret htr hsec
    rcases hsec with h | h
    all_goals
      simp only [decrypt, h, htr, Bool.not_true]
      rw [if_neg (by simp)]
      exact ⟨rfl, rfl⟩
  · intro P st s secret hs hsec hparse
    simp only [decrypt, decryptInputTruthy, jsOrStr_some_of_ne secret st.defaultSecret hsec,
      hparse]
    rw [if_neg (by simp [hs]), if_neg hsec]
    exact ⟨rfl, rfl⟩
  · intro P st o secret hsec hmiss
    rw [decrypt_obj_eq P st o secret hsec]
    unfold decryptFromObj
    rw [if_pos (by
      rcases hmiss with h | h | h
      all_goals rw [h]
      all_goals simp)]
    exact ⟨rfl, rfl⟩

/-- Witness for C7: each validation case evaluated on concrete inputs. -/
theorem c7_validation_before_crypto_witness :
    ((encrypt toyPrims init none (some "s")).result
        = .error (.validation encryptNoValueMsg) ∧
      (encrypt toyPrims init none (some "s")).events = []) ∧
    ((encrypt toyPrims init (some "msg") none).result
        = .error (.validation encryptNoSecretMsg) ∧
      (encrypt toyPrims init (some "msg") none).events = []) ∧
    ((decrypt toyPrims init (some (.text "")) (some "s")).result
        = .error (.validation decryptNoValueMsg) ∧
      (decrypt toyPrims init (some (.text "")) (some "s")).events = []) ∧
    ((decrypt toyPrims init (some (.obj [("iv", .str "x")])) none).result
        = .error (.validation decryptNoSecretMsg) ∧
      (decrypt toyPrims init (some (.obj [("iv", .str "x")])) none).events = []) ∧
    ((decrypt toyPrims init (some (.text "\x7bnot json")) (some "s")).result
        = .error (.validation decryptParseMsg) ∧
      (decrypt toyPrims init (some (.text "\x7bnot json")) (some "s")).events = []) ∧
    ((decrypt toyPrims init (some (.obj [("iv", .str "x"), ("salt", .str "y")]))
        (some "s")).result = .error (.validation decryptInvalidObjMsg) ∧
      (decrypt toyPrims init (some (.obj [("iv", .str "x"), ("salt", .str "y")]))
        (some "s")).events = []) :=
  ⟨⟨(c7_validation_before_crypto.1 toyPrims init (some "s")).1,
    (c7_validation_before_crypto.1 toyPrims init (some "s")).2.1⟩,
   c7_validation_before_crypto.2.1 toyPrims init "msg" none (by decide) (Or.inl rfl),
   ⟨(c7_validation_before_crypto.2.2.1 toyPrims init (some "s")).2.2.1,
    (c7_validation_before_crypto.2.2.1 toyPrims init (some "s")).2.2.2⟩,
   c7_validation_before_crypto.2.2.2.1 toyPrims init
     (some (.obj [("iv", .str "x")])) none rfl (Or.inl rfl),
   c7_validation_before_crypto.2.2.2.2.1 toyPrims init "\x7bnot json" "s"
     (by decide) (by decide) rfl,
   c7_validation_before_crypto.2.2.2.2.2 toyPrims init
     [("iv", .str "x"), ("salt", .str "y")] "s" (by decide) (Or.inr (Or.inr rfl))⟩

/-- C3: for every non-empty plaintext and non-empty secret (and a key length
that passes the KDF's argument validation, as any sane configuration does),
`encryptAsync` invokes its callback with a non-null wrapped operation error
and never with a result envelope: the strict-mode KDF continuation reads
`this.keyLength` with `this` undefined, and the resulting TypeError is caught
and reported through the callback. -/
theorem c3_encryptAsync_always_errors (P : CryptoPrimitives) (st : KryptState)
    (inp secret : String) (hin : inp ≠ "") (hsec : secret ≠ "")
    (h8 : legacyKeyLength st.keyLength % 8 = 0) :
    ∃ msg, (encryptAsync P st (some inp) (some secret)).outcome
      = .deferredCb (.error (.cryptoOp msg)) := by
  simp only [encryptAsync, jsOrStr_some_of_ne secret st.defaultSecret hsec]
  rw [if_neg hin, if_neg hsec, if_neg (by omega : ¬legacyKeyLength st.keyLength % 8 ≠ 0)]
  unfold encryptAsyncContinuation
  rcases hE : P.aesEncryptB64
      (P.pbkdf2 secret (P.randomBytes (legacyKeyLength st.keyLength / 8))
        st.iterations (legacyKeyLength st.keyLength / 8))
      (P.randomBytes 16) inp with e | ev
  · exact ⟨encryptFailMsg ++ e, rfl⟩
  · exact ⟨thisUndefinedMsg, rfl⟩

/-- Witness for C3 on concrete inputs. -/
theorem c3_encryptAsync_always_errors_witness :
    ∃ msg, (encryptAsync toyPrims init (some "hello") (some "pw")).outcome
      = .deferredCb (.error (.cryptoOp msg)) :=
  c3_encryptAsync_always_errors toyPrims init "hello" "pw"
    (by decide) (by decide) (by decide)

/-- C2 (code bug): on the very inputs of the spec's example, the synchronous
`encrypt` produces an envelope but `encryptAsync` delivers a wrapped
TypeError to its callback instead of a structurally equivalent envelope —
the strict-mode continuation reads `this.keyLength` with `this` undefined.
With a correctly bound receiver the same continuation would deliver exactly
the synchronous envelope. -/
theorem c2_encryptAsync_diverges_from_encrypt :
    (encryptAsync toyPrims init (some "hello world") (some "correct-horse")).outcome
      = .deferredCb (.error (.cryptoOp thisUndefinedMsg)) ∧
    ((encrypt toyPrims init (some "hello world") (some "correct-horse")).result.toOption.isSome
      = true) ∧
    (encryptAsyncContinuation toyPrims
        (some (encryptAsync toyPrims init (some "hello world") (some "correct-horse")).state)
        "hello world" (toyPrims.randomBytes (256 / 8)) (toyPrims.randomBytes 16)
        (toyPrims.pbkdf2 "correct-horse" (toyPrims.randomBytes (256 / 8)) 64000 (256 / 8))
      = (encrypt toyPrims init (some "hello world") (some "correct-horse")).result) :=
  ⟨rfl, rfl, rfl⟩

/-- A session configured with keyLength 32, for the C4 counterexample. -/
def c4State : KryptState :=
  { iterations := 64000, keyLength := 32, defaultSecret := none, context := [] }

/-- Counterexample to C4 as stated: with starting keyLength 32, `encrypt`
mutates the session configuration — afterwards keyLength is 256, not 32. -/
theorem c4_mutation_counterexample :
    c4State.keyLength = 32 ∧
    (encrypt toyPrims c4State (some "x") (some "s")).state.keyLength = 256 ∧
    (encrypt toyPrims c4State (some "x") (some "s")).state ≠ c4State :=
  ⟨rfl, rfl, by decide⟩

/-- C4 (amended): decrypt paths never mutate the configuration; encrypt
paths preserve iterations, defaultSecret and context, and preserve keyLength
whenever it is not 32 — but a configured keyLength of exactly 32 is
persistently rewritten to 256 by the legacy normalization on the encrypt
paths. -/
theorem c4_frame_amended (P : CryptoPrimitives) (st : KryptState)
    (input secret : Option String) (din : Option DecryptInput)
    (dsecret : Option String) :
    (decrypt P st din dsecret).state = st ∧
    (decryptAsync P st din dsecret).state = st ∧
    (encrypt P st input secret).state.iterations = st.iterations ∧
    (encrypt P st input secret).state.defaultSecret = st.defaultSecret ∧
    (encrypt P st input secret).state.context = st.context ∧
    (encryptAsync P st input secret).state.iterations = st.iterations ∧
    (encryptAsync P st input secret).state.defaultSecret = st.defaultSecret ∧
    (encryptAsync P st input secret).state.context = st.context ∧
    (st.keyLength ≠ 32 →
      (encrypt P st input secret).state = st ∧
      (encryptAsync P st input secret).state = st) ∧
    ((encrypt P st input secret).state.keyLength = st.keyLength ∨
      (st.keyLength = 32 ∧ (encrypt P st input secret).state.keyLength = 256)) ∧
    ((encryptAsync P st input secret).state.keyLength = st.keyLength ∨
      (st.keyLength = 32 ∧ (encryptAsync P st input secret).state.keyLength = 256)) := by
  have hse := encrypt_state_cases P st input secret
  have hsa := encryptAsync_state_cases P st input secret
  have heta : ∀ t : KryptState, t.keyLength ≠ 32 →
      ({ t with keyLength := legacyKeyLength t.keyLength } : KryptState) = t := by
    intro t ht
    rw [legacyKeyLength_eq_of_ne _ ht]
  have hfields : ∀ s1 : KryptState,
      s1 = st ∨ s1 = { st with keyLength := legacyKeyLength st.keyLength } →
      s1.iterations = st.iterations ∧ s1.defaultSecret = st.defaultSecret ∧
      s1.context = st.context ∧
      (s1.keyLength = st.keyLength ∨ (st.keyLength = 32 ∧ s1.keyLength = 256)) := by
    intro s1 h
    rcases h with h | h
    · subst h
      exact ⟨rfl, rfl, rfl, Or.inl rfl⟩
    · subst h
      refine ⟨rfl, rfl, rfl, ?_⟩
      by_cases h32 : st.keyLength = 32
      · exact Or.inr ⟨h32, by rw [h32]; rfl⟩
      · exact Or.inl (legacyKeyLength_eq_of_ne _ h32)
  obtain ⟨he1, he2, he3, he4⟩ := hfields _ hse
  obtain ⟨ha1, ha2, ha3, ha4⟩ := hfields _ hsa
  refine ⟨decrypt_state P st din dsecret, decryptAsync_state P st din dsecret,
    he1, he2, he3, ha1, ha2, ha3, ?_, he4, ha4⟩
  intro h32
  constructor
  · rcases hse with h | h
    · exact h
    · rw [h]
      exact heta st h32
  · rcases hsa with h | h
    · exact h
    · rw [h]
      exact heta st h32

/-- A session whose keyLength is not 32, for the C4 witness. -/
def c4WState : KryptState :=
  { iterations := 10, keyLength := 100, defaultSecret := none, context := [] }

/-- Witness for C4 (amended): concrete evaluation with keyLength 100 shows
no mutation anywhere. -/
theorem c4_frame_amended_witness :
    (encrypt toyPrims c4WState (some "x") (some "s")).state = c4WState ∧
    (decrypt toyPrims c4WState none none).state = c4WState :=
  ⟨((c4_frame_amended toyPrims c4WState
      (some "x") (some "s") none none).2.2.2.2.2.2.2.2.1 (by decide)).1,
   (c4_frame_amended toyPrims c4WState
      (some "x") (some "s") none none).1⟩

/-- Counterexample to C5 as stated: validation failures invoke the callback
synchronously, before the initiating call returns (`syncCb`), both for
`encryptAsync` with a missing input and for `decryptAsync` with malformed
JSON text. -/
theorem c5_sync_callback_counterexample :
    (encryptAsync toyPrims init none (some "s")).outcome
      = .syncCb (.validation encryptNoValueMsg) ∧
    (decryptAsync toyPrims init (some (.text "\x7bbad")) (some "s")).outcome
      = .syncCb (.validation decryptParseMsg) :=
  ⟨rfl, rfl⟩

/-- C5 (amended): each call to `encryptAsync`/`decryptAsync` invokes its
callback exactly once, but not always asynchronously: validation failures
(missing input, missing secret, malformed JSON, envelope missing
iv/salt/value) invoke it synchronously before the call returns, while calls
that reach the KDF step defer it. -/
theorem c5_callback_discipline_amended :
    (∀ (P : CryptoPrimitives) (st : KryptState) (secret : Option String),
      (encryptAsync P st none secret).outcome = .syncCb (.validation encryptNoValueMsg) ∧
      (encryptAsync P st (some "") secret).outcome
        = .syncCb (.validation encryptNoValueMsg)) ∧
    (∀ (P : CryptoPrimitives) (st : KryptState) (inp : String) (secret : Option String),
      inp ≠ "" →
      (jsOrStr secret st.defaultSecret = none ∨ jsOrStr secret st.defaultSecret = some "") →
      (encryptAsync P st (some inp) secret).outcome
        = .syncCb (.validation encryptNoSecretMsg)) ∧
    (∀ (P : CryptoPrimitives) (st : KryptState) (inp secret : String),
      inp ≠ "" → secret ≠ "" → legacyKeyLength st.keyLength % 8 = 0 →
      ∃ arg, (encryptAsync P st (some inp) (some secret)).outcome = .deferredCb arg) ∧
    (∀ (P : CryptoPrimitives) (st : KryptState) (secret : Option String),
      (decryptAsync P st none secret).outcome = .syncCb (.validation decryptNoValueMsg) ∧
      (decryptAsync P st (some (.text "")) secret).outcome
        = .syncCb (.validation decryptNoValueMsg)) ∧
    (∀ (P : CryptoPrimitives) (st : KryptState) (input : Option DecryptInput)
      (secret : Option String),
      decryptInputTruthy input = true →
      (jsOrStr secret st.defaultSecret = none ∨ jsOrStr secret st.defaultSecret = some "") →
      (decryptAsync P st input secret).outcome = .syncCb (.validation decryptNoSecretMsg)) ∧
    (∀ (P : CryptoPrimitives) (st : KryptState) (s secret : String),
      s ≠ "" → secret ≠ "" → P.jsonParse s = .fail →
      (decryptAsync P st (some (.text s)) (some secret)).outcome
        = .syncCb (.validation decryptParseMsg)) ∧
    (∀ (P : CryptoPrimitives) (st : KryptState) (o : JsObj) (secret : String),
      secret ≠ "" →
      (fieldTruthy (objGet o "iv") = false ∨ fieldTruthy (objGet o "salt") = false ∨
        fieldTruthy (objGet o "value") = false) →
      (decryptAsync P st (some (.obj o)) (some secret)).outcome
        = .syncCb (.validation decryptInvalidObjMsg)) ∧
    (∀ (P : CryptoPrimitives) (st : KryptState) (o : JsObj) (secret : String) (kl it : Nat),
      secret ≠ "" →
      fieldTruthy (objGet o "iv") = true →
      fieldTruthy (objGet o "salt") = true →
      fieldTruthy (objGet o "value") = true →
      jsOrField (objGet o "keyLength") st.keyLength = .num kl →
      jsOrField (objGet o "iterations") st.iterations = .num it →
      legacyKeyLength kl % 8 = 0 →
      ∃ arg, (decryptAsync P st (some (.obj o)) (some secret)).outcome = .deferredCb arg) ∧
    (∀ (e : KryptError) (arg : Except KryptError String),
      (AsyncOutcome.syncCb e : AsyncOutcome String).cbCount = 1 ∧
      (AsyncOutcome.deferredCb arg : AsyncOutcome String).cbCount = 1) := by
  refine ⟨?_, ?_, ?_, ?_, ?_, ?_, ?_, ?_, fun e arg => ⟨rfl, rfl⟩⟩
  · intro P st secret
    exact ⟨rfl, rfl⟩
  · intro P st inp secret hin hsec
    rcases hsec with h | h
    · simp only [encryptAsync, h]
      rw [if_neg hin]
    · simp only [encryptAsync, h]
      rw [if_neg hin, if_pos trivial]
  · intro P st inp secret hin hsec h8
    simp only [encryptAsync, jsOrStr_some_of_ne secret st.defaultSecret hsec]
    rw [if_neg hin, if_neg hsec,
      if_neg (by omega : ¬legacyKeyLength st.keyLength % 8 ≠ 0)]
    exact ⟨_, rfl⟩
  · intro P st secret
    exact ⟨rfl, rfl⟩
  · intro P st input secret htr hsec
    rcases hsec with h | h
    · simp only [decryptAsync, h, htr, Bool.not_true]
      rw [if_neg (by simp)]
    · simp only [decryptAsync, h, htr, Bool.not_true]
      rw [if_neg (by simp), if_pos trivial]
  · intro P st s secret hs hsec hparse
    simp only [decryptAsync, decryptInputTruthy,
      jsOrStr_some_of_ne secret st.defaultSecret hsec, hparse]
    rw [if_neg (by simp [hs]), if_neg hsec]
  · intro P st o secret hsec hmiss
    simp only [decryptAsync, decryptInputTruthy,
      jsOrStr_some_of_ne secret st.defaultSecret hsec, Bool.not_true]
    rw [if_neg (by simp), if_neg hsec]
    rw [if_pos (by
      rcases hmiss with h | h | h
      all_goals rw [h]
      all_goals simp)]
  · intro P st o secret kl it hsec hiv hsalt hval hklres hitres h8
    simp only [decryptAsync, decryptInputTruthy,
      jsOrStr_some_of_ne secret st.defaultSecret hsec, Bool.not_true]
    rw [if_neg (by simp), if_neg hsec]
    rw [if_neg (by rw [hiv, hsalt, hval]; simp)]
    simp only [hklres, hitres, legacyVal_num]
    rw [if_neg (by omega : ¬legacyKeyLength kl % 8 ≠ 0)]
    exact ⟨_, rfl⟩

/-- An envelope with truthy string fields for the C5 witness; keyLength and
iterations fall back to the session configuration. -/
def c5Env : JsObj := [("iv", .str "A"), ("salt", .str "B"), ("value", .str "C")]

/-- Witness for C5 (amended): validation failure yields a synchronous
callback, valid calls defer it. -/
theorem c5_callback_discipline_amended_witness :
    (encryptAsync toyPrims init none (some "s")).outcome
      = .syncCb (.validation encryptNoValueMsg) ∧
    (∃ arg, (encryptAsync toyPrims init (some "m") (some "s")).outcome
      = .deferredCb arg) ∧
    (∃ arg, (decryptAsync toyPrims init (some (.obj c5Env)) (some "s")).outcome
      = .deferredCb arg) :=
  ⟨(c5_callback_discipline_amended.1 toyPrims init (some "s")).1,
   c5_callback_discipline_amended.2.2.1 toyPrims init "m" "s"
     (by decide) (by decide) (by decide),
   c5_callback_discipline_amended.2.2.2.2.2.2.2.1 toyPrims init c5Env "s" 256 64000
     (by decide) (by decide) (by decide) (by decide) (by rfl) (by rfl) (by decide)⟩

/-- An envelope whose keyLength field is present but 0 (falsy in JS). -/
def c9Env : JsObj :=
  [("iv", .str "A"), ("salt", .str "B"), ("value", .str "C"),
   ("keyLength", .num 0), ("iterations", .num 5)]

/-- Counterexample to C9 as stated: the envelope's `keyLength` field is
present (with value 0), yet the KDF derives a 256-bit key from the session
configuration — `input.keyLength || this.keyLength` discards any falsy
present value, so the resolved key length is not the one read from the
envelope. -/
theorem c9_falsy_field_counterexample :
    objGet c9Env "keyLength" = some (.num 0) ∧
    (decrypt toyPrims init (some (.obj c9Env)) (some "s")).events
      = [.kdf 5 (256 / 8), .cipherDecrypt] ∧
    (256 : Nat) / 8 ≠ 0 / 8 :=
  ⟨rfl, rfl, by decide⟩

/-- C9 (amended): on decrypt, the key length and iteration count used for
key derivation are those read from the envelope's fields when the field is
present with a truthy (non-zero) value, and otherwise are the session's
configured values; the Legacy Normalizer is then applied to the resolved key
length. -/
theorem c9_resolution_amended :
    (∀ d : Nat, jsOrField none d = .num d) ∧
    (∀ (w : JsVal) (d : Nat), w.truthy = true → jsOrField (some w) d = w) ∧
    (∀ (w : JsVal) (d : Nat), w.truthy = false → jsOrField (some w) d = .num d) ∧
    (∀ (P : CryptoPrimitives) (st : KryptState) (o : JsObj) (secret : String)
      (kl it : Nat),
      secret ≠ "" →
      fieldTruthy (objGet o "iv") = true →
      fieldTruthy (objGet o "salt") = true →
      fieldTruthy (objGet o "value") = true →
      jsOrField (objGet o "keyLength") st.keyLength = .num kl →
      jsOrField (objGet o "iterations") st.iterations = .num it →
      legacyKeyLength kl % 8 = 0 →
      (decrypt P st (some (.obj o)) (some secret)).events.head?
        = some (.kdf it (legacyKeyLength kl / 8))) := by
  refine ⟨fun d => rfl, ?_, ?_, ?_⟩
  · intro w d hw
    simp only [jsOrField, hw]
    rfl
  · intro w d hw
    simp only [jsOrField, hw]
    rfl
  · intro P st o secret kl it hsec hiv hsalt hval hklres hitres h8
    rw [decrypt_obj_eq P st o secret hsec]
    exact decryptFromObj_kdf P st o secret kl it hiv hsalt hval hklres hitres h8

/-- Witness for C9 (amended) at the counterexample envelope: with the falsy
stored keyLength, the session's 256 is resolved and normalized. -/
theorem c9_resolution_amended_witness :
    (decrypt toyPrims init (some (.obj c9Env)) (some "s")).events.head?
      = some (.kdf 5 (256 / 8)) := by
  have h := c9_resolution_amended.2.2.2 toyPrims init c9Env "s" 256 5
    (by decide) (by decide) (by decide) (by decide) (by rfl) (by rfl) (by decide)
  rw [show legacyKeyLength 256 = 256 from by decide] at h
  exact h

end Krypt
